import Mathlib

/-!
Verification of the log ingestion / metric extraction core of the
PoW_gw2_bot repository, as a shallow embedding in Lean 4.

Embedded components (file names refer to the repository sources):
* `analytics/service.py` — mechanic counting (`_collect_mechanic_counts`,
  `_collapse_occurrences`, `_collect_mechanic_counts_collapsed`,
  `_collect_mechanic_actor_times`), payload normalization
  (`_coerce_payload_to_json`, dict branch), enrichment (`enrich_upload`)
  and aggregation (`build_event_metrics`, first-success-per-boss part).
* `analytics/registry.py` — the `ENCOUNTER_MECHANICS` registry.
* `services/upload_service.py` — upload response classification and the
  persistent retry queue failure step.
* `services/session.py` — the file-watch upload session loop, modelled as
  a state machine driven by a list of poll rounds.

Conventions: Python dicts with string keys become association lists
(`List (String × _)`); JSON numbers are modelled as `Int` (all values the
embedded code paths manipulate are integral); fallible lookups become
`Option`.  Network and filesystem effects are modelled by passing the
observed responses / directory contents as explicit inputs.
-/

namespace PoW

/-- JSON value model (Python `dict` / `list` / scalars).  Numbers are
modelled as `Int`; the embedded code paths only do integral arithmetic. -/
inductive JVal where
  | null : JVal
  | bool : Bool → JVal
  | num : Int → JVal
  | str : String → JVal
  | arr : List JVal → JVal
  | obj : List (String × JVal) → JVal
deriving Repr

namespace JVal

/-- Python `d.get(k)` for an object: `none` when the key is absent.
Object literals in this file have distinct keys, so first-match lookup
agrees with Python dict semantics. -/
def get : JVal → String → Option JVal
  | .obj kvs, k => kvs.lookup k
  | _, _ => none

/-- Python truthiness of a JSON value. -/
def truthy : JVal → Bool
  | .null => false
  | .bool b => b
  | .num n => n != 0
  | .str s => s != ""
  | .arr xs => !xs.isEmpty
  | .obj kvs => !kvs.isEmpty

/-- The elements of a JSON list, `[]` otherwise. -/
def asArr : JVal → List JVal
  | .arr xs => xs
  | _ => []

def isObj : JVal → Bool
  | .obj _ => true
  | _ => false

end JVal

/-- Python `str.lower()` restricted to ASCII (the normalizer then drops
every non-`[a-z0-9]` character, so ASCII lowering is all that matters). -/
def asciiLower (s : String) : String :=
  String.mk (s.toList.map Char.toLower)

/-- Python `str.strip()` (whitespace at both ends), via character lists. -/
def pyStrip (s : String) : String :=
  String.mk
    ((((s.toList.dropWhile Char.isWhitespace).reverse.dropWhile
        Char.isWhitespace)).reverse)

/-- `_norm` in `analytics/service.py`: lowercase, keep only `[a-z0-9]`.
(The intermediate `.strip()` is subsumed by dropping non-alphanumerics.) -/
def normStr (s : String) : String :=
  String.mk ((s.toList.map Char.toLower).filter (fun c => c.isLower || c.isDigit))

/-- Structural prefix test on character lists. -/
def charsPrefix : List Char → List Char → Bool
  | [], _ => true
  | _ :: _, [] => false
  | a :: as, b :: bs => a == b && charsPrefix as bs

/-- Structural infix test on character lists. -/
def charsInfix (sub : List Char) : List Char → Bool
  | [] => charsPrefix sub []
  | c :: cs => charsPrefix sub (c :: cs) || charsInfix sub cs

/-- Substring test on strings (Python `sub in f`), via character lists. -/
def strContains (hay sub : String) : Bool :=
  charsInfix sub.toList hay.toList

/-- Suffix test on strings (Python `str.endswith`). -/
def strEndsWith (s suffix : String) : Bool :=
  charsPrefix suffix.toList.reverse s.toList.reverse

/-- Counter map `account -> count` preserving Python dict insertion order. -/
def alistAdd (m : List (String × Nat)) (k : String) (v : Nat) : List (String × Nat) :=
  match m with
  | [] => [(k, v)]
  | (k', v') :: rest =>
      if k' = k then (k', v' + v) :: rest else (k', v') :: alistAdd rest k v

/-- Lookup in a counter map, defaulting to 0 (Python `defaultdict(int)`). -/
def alistGetD (m : List (String × Nat)) (k : String) : Nat :=
  (m.lookup k).getD 0

/-- `_collapse_occurrences` in `analytics/service.py`: the loop body,
carrying `prev` and the running occurrence count. -/
def collapseLoop (gap : Int) : Int → Nat → List Int → Nat
  | _, occ, [] => occ
  | prev, occ, t :: ts =>
      collapseLoop gap t (if t - prev > gap then occ + 1 else occ) ts

/-- `_collapse_occurrences(times_ms, gap_ms)`: merge consecutive hits whose
gap ≤ `gap` into one occurrence and count the occurrences. -/
def collapse_occurrences (times : List Int) (gap : Int) : Nat :=
  match times with
  | [] => 0
  | t :: ts => collapseLoop gap t 1 ts

/-- Spec-side description (§8 of the spec): the list of merged groups,
where consecutive hits are merged whenever their gap is ≤ the window. -/
def mergedGroups (gap : Int) : List Int → List (List Int)
  | [] => []
  | [t] => [[t]]
  | t :: t' :: ts =>
      match mergedGroups gap (t' :: ts) with
      | [] => [[t]]
      | g :: gs => if t' - t > gap then [t] :: g :: gs else (t :: g) :: gs

/-- Dict assignment (later assignment to the same key overwrites). -/
def dictSet {β : Type} (m : List (String × β)) (k : String) (v : β) :
    List (String × β) :=
  match m with
  | [] => [(k, v)]
  | (k', v') :: rest => if k' = k then (k, v) :: rest else (k', v') :: dictSet rest k v

/-- Dict deletion (`d.pop(k, None)`). -/
def dictDel {β : Type} (m : List (String × β)) (k : String) : List (String × β) :=
  match m with
  | [] => []
  | (k', v) :: rest => if k' = k then dictDel rest k else (k', v) :: dictDel rest k

/-- Set insertion (`s.add(x)` on a Python set, membership order view). -/
def setAdd (s : List String) (x : String) : List String :=
  if x ∈ s then s else s ++ [x]

/-- Python `a or b or ...` over optional JSON values: the first truthy
value.  All call sites only test the result for truthiness / shape, so a
falsy residual value is interchangeable with `none`. -/
def firstTruthy (opts : List (Option JVal)) : Option JVal :=
  (opts.filterMap id).find? JVal.truthy

/-- Python `int(v)` with a fallback when conversion raises.  Booleans
convert to 0/1; numeric strings parse; other shapes raise (→ fallback). -/
def pyIntD (v : JVal) (dflt : Int) : Int :=
  match v with
  | .num n => n
  | .bool b => if b then 1 else 0
  | .str s => (s.toInt?).getD dflt
  | _ => dflt

/-- EI time normalization in `_collect_mechanic_counts`:
`float(t)`, then seconds→ms when the value is small (`< 1e5`), else it is
already ms.  Values `float` cannot convert give `ms = None`.  (Times in
the embedded reports are integral; booleans convert like Python floats.) -/
def timeToMs : Option JVal → Option Int
  | some (.num n) => some (if n < 100000 then n * 1000 else n)
  | some (.bool b) => some (if b then 1000 else 0)
  | _ => none

/-- Mutable state threaded through the three counting modes of
`_collect_mechanic_counts`: the `per_actor` counter and the
`seen_by_actor` dedup log, keyed by `(account, canon_key)`. -/
structure CollectSt where
  perActor : List (String × Nat)
  seen : List ((String × String) × List Int)
deriving Repr

/-- `_already_seen(account, ms)`: true iff a previously counted hit for
the same `(account, canon_key)` partition lies within the dedup window.
(The source's first loop over `times` is a self-described no-op
placeholder and is omitted.) -/
def alreadySeen (dedup_ms : Option Int) (canon : String) (st : CollectSt)
    (account : String) (ms : Option Int) : Bool :=
  match ms, dedup_ms with
  | some t, some d =>
      ((st.seen.lookup (account, canon)).getD []).any (fun prev => decide (|prev - t| ≤ d))
  | _, _ => false

/-- `d.setdefault(key, []).append(t)` on a `key -> list of times` map. -/
def groupAppend {κ : Type} [DecidableEq κ] (m : List (κ × List Int)) (key : κ)
    (t : Int) : List (κ × List Int) :=
  match m with
  | [] => [(key, [t])]
  | (k, ts) :: rest =>
      if k = key then (k, ts ++ [t]) :: rest else (k, ts) :: groupAppend rest key t

/-- `_mark_seen(account, ms)`: record a counted hit's time. -/
def markSeen (canon : String) (st : CollectSt) (account : String) :
    Option Int → CollectSt
  | none => st
  | some t => { st with seen := groupAppend st.seen (account, canon) t }

/-- The three normalized name fields of a mechanic entry.  Name fields
are strings (or absent) in EI JSON; a non-string name is out of model. -/
def mechFields (m : JVal) : List String :=
  [normStr (getStrD (m.get "name")), normStr (getStrD (m.get "shortName")),
   normStr (getStrD (m.get "fullName"))]
where
  getStrD : Option JVal → String
    | some (.str s) => s
    | _ => ""

/-- `_match_alias_from_mech_entry`: strict equality against the
normalized exact aliases first, then substring fallback; returns the
matched normalized token. -/
def matchAlias (exactNorm subsNorm : List String) (m : JVal) : Option String :=
  let fields := mechFields m
  match exactNorm.find? (fun ex => ex != "" && fields.any (fun f => f != "" && f == ex)) with
  | some ex => some ex
  | none =>
      subsNorm.find? (fun sub => sub != "" && fields.any (fun f => f != "" && strContains f sub))

/-- The char-name → account map built from the report's player list
(`name_to_account`).  Name and account are taken when both are truthy;
they are strings in EI JSON. -/
def nameToAccount (j : JVal) : List (String × String) :=
  (playersOrEmpty j).foldl
    (fun acc pl =>
      match pl with
      | .obj kvs =>
          match kvs.lookup "name", kvs.lookup "account" with
          | some (.str ch), some (.str acct) =>
              if ch != "" && acct != "" then dictSet acc ch acct else acc
          | _, _ => acc
      | _ => acc)
    []
where
  playersOrEmpty (j : JVal) : List JVal :=
    match j.get "players" with
    | some v => if v.truthy then v.asArr else []
    | none => []

/-- `canon_key`: the declared canonical id if truthy, else the alias list
(exact names, else substrings, else `["mechanic"]`) joined by commas;
stripped and lowercased. -/
def canonKeyOf (canonical : Option String) (exact_names : Option (List String))
    (substrings : List String) : String :=
  let fallbackList :=
    if (exact_names.getD []) ≠ [] then exact_names.getD []
    else if substrings ≠ [] then substrings else ["mechanic"]
  let base :=
    match canonical with
    | some c => if c ≠ "" then c else String.intercalate "," fallbackList
    | none => String.intercalate "," fallbackList
  asciiLower (pyStrip base)

/-- The account a per-hit record is attributed to: the record's truthy
`actor`/`name` field resolved through `name_to_account`. -/
def recAccount (n2a : List (String × String)) (rec : JVal)
    (nameKeys : List String) : Option String :=
  match firstTruthy (nameKeys.map (rec.get ·)) with
  | some (.str s) => n2a.lookup s
  | _ => none

/-- Process one per-hit record of a matching `mechanicsData` list
(mode-1 body of `_collect_mechanic_counts`; mode 3 reuses it with
`source` as an extra name key). -/
def mode1Rec (dedup_ms : Option Int) (canon : String) (n2a : List (String × String))
    (nameKeys : List String) (st : CollectSt) (rec : JVal) : CollectSt :=
  match rec with
  | .obj _ =>
      match recAccount n2a rec nameKeys with
      | none => st
      | some account =>
          let ms := timeToMs (rec.get "time")
          if alreadySeen dedup_ms canon st account ms then st
          else
            let st := markSeen canon st account ms
            { st with perActor := alistAdd st.perActor account 1 }
  | _ => st

/-- Mode 1 of `_collect_mechanic_counts`: per-hit `mechanicsData` of every
matching mechanic entry, with the shared dedup log; the Bool is
`per_hit_found`. -/
def mode1 (exactNorm subsNorm : List String) (dedup_ms : Option Int)
    (canon : String) (n2a : List (String × String)) (mechanics : List JVal) :
    CollectSt × Bool :=
  mechanics.foldl
    (fun (acc : CollectSt × Bool) m =>
      match m with
      | .obj _ =>
          if (matchAlias exactNorm subsNorm m).isSome then
            match m.get "mechanicsData" with
            | some (.arr (r :: rs)) =>
                ((r :: rs).foldl (mode1Rec dedup_ms canon n2a ["actor", "name"]) acc.1,
                 true)
            | _ => acc
          else acc
      | _ => acc)
    (⟨[], []⟩, false)

/-- Mode 2 of `_collect_mechanic_counts`: EI aggregated per-actor counts
(`players` / `playerHits`); the Bool is `used_agg`. -/
def mode2 (exactNorm subsNorm : List String) (n2a : List (String × String))
    (st0 : CollectSt) (mechanics : List JVal) : CollectSt × Bool :=
  mechanics.foldl
    (fun (acc : CollectSt × Bool) m =>
      match m with
      | .obj _ =>
          if (matchAlias exactNorm subsNorm m).isSome then
            match firstTruthy [m.get "players", m.get "playerHits"] with
            | some (.arr (r :: rs)) =>
                ((r :: rs).foldl (fun st rec =>
                    match rec with
                    | .obj kvs =>
                        let account :=
                          match kvs.lookup "account" with
                          | some v =>
                              if v.truthy then
                                match v with
                                | .str s => some s
                                | _ => none
                              else recAccount n2a rec ["name", "actor"]
                          | none => recAccount n2a rec ["name", "actor"]
                        match account with
                        | none => st
                        | some a =>
                            let cRaw :=
                              match kvs.lookup "c" with
                              | some v => v
                              | none => (kvs.lookup "count").getD (.num 1)
                            let c := pyIntD cRaw 1
                            if c > 0 then
                              { st with perActor := alistAdd st.perActor a c.toNat }
                            else st
                    | _ => st) acc.1,
                 true)
            | _ => acc
          else acc
      | _ => acc)
    (st0, false)

/-- The top-level log containers scanned by mode 3 of
`_collect_mechanic_counts`: list-valued keys first, then the values of
dict-valued keys, keeping only non-empty lists. -/
def logCandidates (j : JVal) : List (List JVal) :=
  (["mechanicLogs", "mechanicsLogs", "mechanicsLog", "mechanicsEvents",
    "mechLogs"].filterMap (fun k =>
      match j.get k with
      | some (.arr (x :: xs)) => some (x :: xs)
      | _ => none)) ++
  (["mechanicLogsById", "mechanicsById", "mechData"].foldr
    (fun k acc =>
      (match j.get k with
       | some (.obj (kv :: kvs)) =>
           (kv :: kvs).filterMap (fun p =>
             match p.2 with
             | .arr (x :: xs) => some (x :: xs)
             | _ => none)
       | _ => []) ++ acc)
    [])

/-- Mode 3 of `_collect_mechanic_counts`: scan alternative top-level log
containers, matching each record's pseudo name triple
(`mechanic`/`name`, `shortName`, `fullName`) with the same matcher and
the same dedup rule as mode 1 (with `source` as an extra actor key). -/
def mode3 (exactNorm subsNorm : List String) (dedup_ms : Option Int)
    (canon : String) (n2a : List (String × String)) (j : JVal)
    (st0 : CollectSt) : CollectSt :=
  (logCandidates j).foldl
    (fun st logs =>
      logs.foldl
        (fun st rec =>
          match rec with
          | .obj _ =>
              let pseudo : JVal := .obj
                [("name", (firstTruthy [rec.get "mechanic", rec.get "name"]).getD .null),
                 ("shortName", (rec.get "shortName").getD .null),
                 ("fullName", (rec.get "fullName").getD .null)]
              if (matchAlias exactNorm subsNorm pseudo).isSome then
                mode1Rec dedup_ms canon n2a ["actor", "name", "source"] st rec
              else st
          | _ => st)
        st)
    st0

/-- `j.get("mechanics") or []`, restricted to list shape. -/
def mechanicsOf (j : JVal) : List JVal :=
  match j.get "mechanics" with
  | some v => if v.truthy then v.asArr else []
  | none => []

/-- `_collect_mechanic_counts(j, substrings, exact_names, canonical,
dedup_ms)`: per-account counts for one mechanic spec, via the three-mode
priority chain (per-hit records, aggregated counts, top-level logs). -/
def collect_mechanic_counts (j : JVal) (substrings : List String)
    (exact_names : Option (List String)) (canonical : Option String)
    (dedup_ms : Option Int) : List (String × Nat) :=
  let exactNorm := ((exact_names.getD []).filter (· ≠ "")).map normStr
  let subsNorm := (substrings.filter (· ≠ "")).map normStr
  let n2a := nameToAccount j
  let canon := canonKeyOf canonical exact_names substrings
  let mechanics := mechanicsOf j
  let m1 := mode1 exactNorm subsNorm dedup_ms canon n2a mechanics
  if m1.2 && !m1.1.perActor.isEmpty then m1.1.perActor
  else
    let m2 := mode2 exactNorm subsNorm n2a m1.1 mechanics
    if m2.2 && !m2.1.perActor.isEmpty then m2.1.perActor
    else (mode3 exactNorm subsNorm dedup_ms canon n2a j m2.1).perActor

/-- `_match_mech_names(mech_def, exact_names, substrings)`: exact
normalized name/shortName/fullName match first, substring fallback. -/
def match_mech_names (mech_def : JVal) (exact_names : Option (List String))
    (substrings : List String) : Bool :=
  let fields := mechFields mech_def
  let exactHit :=
    match exact_names with
    | some ex =>
        if ex ≠ [] then
          let exactNorm := (ex.filter (· ≠ "")).map normStr
          fields.any (fun f => f != "" && exactNorm.contains f)
        else false
    | none => false
  if exactHit then true
  else if substrings ≠ [] then
    let subsNorm := (substrings.filter (· ≠ "")).map normStr
    subsNorm.any (fun sub => sub != "" && fields.any (fun f => f != "" && strContains f sub))
  else false

/-- A record time accepted by `isinstance(t, (int, float))` (booleans are
`int` subclasses in Python); `int(t)` of an integral value. -/
def timeNum : Option JVal → Option Int
  | some (.num n) => some n
  | some (.bool b) => some (if b then 1 else 0)
  | _ => none

/-- `_collect_mechanic_actor_times(ei_json, mech_idx, mech_def)`:
`{actor -> sorted [times_ms]}` for one mechanic entry.  Layout A reads
the entry's own `mechanicsData`; layout B scans the report's global
`mechanicsData` blocks for events referencing `mech_idx`.  (Records are
objects with string actors in EI JSON; other shapes raise in the source
and are out of model.) -/
def collect_mechanic_actor_times (ei : JVal) (mechIdx : Nat) (mechDef : JVal) :
    List (String × List Int) :=
  match mechDef.get "mechanicsData" with
  | some (.arr md) =>
      sortEach (md.foldl
        (fun out e =>
          match e with
          | .obj kvs =>
              match kvs.lookup "actor", timeNum (kvs.lookup "time") with
              | some (.str a), some t =>
                  if a ≠ "" then groupAppend out a t else out
              | _, _ => out
          | _ => out)
        [])
  | _ =>
      sortEach ((((ei.get "mechanicsData").getD (.arr [])).asArr).foldl
        (fun out entry =>
          match entry with
          | .obj kvs =>
              match kvs.lookup "actor" with
              | some (.str a) =>
                  if a ≠ "" then
                    (((kvs.lookup "mechanics").getD (.arr [])).asArr).foldl
                      (fun out ev =>
                        match ev with
                        | .obj evs =>
                            match evs.lookup "mechanic" with
                            | some (.num k) =>
                                if k = (mechIdx : Int) then
                                  match timeNum (evs.lookup "time") with
                                  | some t => groupAppend out a t
                                  | none => out
                                else out
                            | _ => out
                        | _ => out)
                      out
                  else out
              | _ => out
          | _ => out)
        [])
where
  sortEach (m : List (String × List Int)) : List (String × List Int) :=
    m.map (fun p => (p.1, List.insertionSort (· ≤ ·) p.2))

/-- `_collect_mechanic_counts_collapsed(ei_json, exact_names, substrings,
gap_ms)`: per-actor collapsed occurrence counts, summed across all
matching mechanic entries. -/
def collect_mechanic_counts_collapsed (ei : JVal)
    (exact_names : Option (List String)) (substrings : List String)
    (gap_ms : Int) : List (String × Nat) :=
  (mechanicsOf ei).enum.foldl
    (fun tot (im : Nat × JVal) =>
      match im.2 with
      | .obj _ =>
          if match_mech_names im.2 exact_names substrings then
            (collect_mechanic_actor_times ei im.1 im.2).foldl
              (fun tot p => alistAdd tot p.1 (collapse_occurrences p.2 gap_ms))
              tot
          else tot
      | _ => tot)
    []

/-- Python `str(v)` for the scalar shapes the embedded code renders
(container rendering is out of model: no embedded report puts containers
in name/boss positions). -/
def pyStr : JVal → String
  | .str s => s
  | .num n => toString n
  | .bool true => "True"
  | .bool false => "False"
  | .null => "None"
  | .arr _ => "<list>"
  | .obj _ => "<dict>"

/-- `_players(j)`: the report's player list, `[]` when absent/mis-shaped. -/
def players : JVal → List JVal
  | j => match j.get "players" with
         | some (.arr ps) => ps
         | _ => []

/-- `_actor_name(p)`: truthy `account`, else truthy `name`, else "Unknown". -/
def actor_name (p : JVal) : String :=
  match firstTruthy [p.get "account", p.get "name"] with
  | some v => pyStr v
  | none => "Unknown"

/-- `_encounter_dict` + `_boss_name`: boss display name with fallbacks. -/
def boss_name (j : JVal) : String :=
  let enc : JVal :=
    match j.get "encounter" with
    | some (.obj kvs) => .obj kvs
    | _ => .obj []
  match firstTruthy [enc.get "boss", j.get "boss", j.get "fightName"] with
  | some v => pyStrip (pyStr v)
  | none => "Unknown Encounter"

/-- `_boss_key_matches(boss_name, key)`: bidirectional substring match on
the alphanumeric-normalized names (`_norm_boss` is `normStr`). -/
def boss_key_matches (bossName key : String) : Bool :=
  let nb := normStr bossName
  let nk := normStr key
  strContains nb nk || strContains nk nb

/-- Python `int(v)` / `float(v)` conversion attempt used by
`_get_from_maybe_list` and `_player_boss_dps`; integral values only in
the `Int` model (non-integral floats do not occur in the embedded
reports). -/
def parseIntLike : JVal → Option Int
  | .num n => some n
  | .bool b => some (if b then 1 else 0)
  | .str s => s.toInt?
  | _ => none

/-- The dict case of `_get_from_maybe_list`: first present non-null key
alias wins; an unparsable value stops the scan (→ default). -/
def getKeysAliases (kvs : List (String × JVal)) : List String → Option Int
  | [] => none
  | k :: ks =>
      match kvs.lookup k with
      | some .null => getKeysAliases kvs ks
      | some v => parseIntLike v
      | none => getKeysAliases kvs ks

/-- `_get_from_maybe_list(obj, *keys, default)`: read a numeric field
from a dict (trying key aliases) or from the first dict in a list that
yields a value. -/
def get_from_maybe_list (obj : Option JVal) (keys : List String) (dflt : Int) : Int :=
  match obj with
  | some (.obj kvs) => (getKeysAliases kvs keys).getD dflt
  | some (.arr els) =>
      (els.findSome? (fun el =>
        match el with
        | .obj kvs => getKeysAliases kvs keys
        | _ => none)).getD dflt
  | _ => dflt

/-- `_player_downs(p)`. -/
def player_downs (p : JVal) : Int :=
  get_from_maybe_list (p.get "defenses") ["downCount", "downs", "downed", "downedCount"] 0

/-- `_player_deaths(p)`. -/
def player_deaths (p : JVal) : Int :=
  get_from_maybe_list (p.get "defenses") ["deadCount", "deaths"] 0

/-- `_player_resurrects(p)`. -/
def player_resurrects (p : JVal) : Int :=
  get_from_maybe_list (p.get "support") ["resurrects", "resurrectsPerformed"] 0

/-- The `float(e.get("powerDps",0)) + float(e.get("condiDps",0))` /
`float(e.get("dps",0))` body of `_player_boss_dps`; `none` models a
conversion raising (→ the whole function returns 0). -/
def entryDps (kvs : List (String × JVal)) : Option Int :=
  if (kvs.lookup "powerDps").isSome || (kvs.lookup "condiDps").isSome then
    match parseIntLike ((kvs.lookup "powerDps").getD (.num 0)),
          parseIntLike ((kvs.lookup "condiDps").getD (.num 0)) with
    | some a, some b => some (a + b)
    | _, _ => none
  else parseIntLike ((kvs.lookup "dps").getD (.num 0))

/-- `_player_boss_dps(p)`: first target's first-phase power+condi DPS,
falling back to `dpsAll[0]`; any error yields 0. -/
def player_boss_dps (p : JVal) : Int :=
  let viaTargets : Option (Option Int) :=
    match p.get "dpsTargets" with
    | some (.arr (t0 :: _)) =>
        match t0 with
        | .arr (e :: _) =>
            match e with
            | .obj kvs => some (entryDps kvs)
            | _ => none
        | _ => none
    | _ => none
  match viaTargets with
  | some r => r.getD 0
  | none =>
      match p.get "dpsAll" with
      | some (.arr (e :: _)) =>
          match e with
          | .obj kvs => (entryDps kvs).getD 0
          | _ => 0
      | _ => 0

/-- One registry rule of `ENCOUNTER_MECHANICS` (`analytics/registry.py`).
The fields `modes` / `force_per_hit` are not read by the service and are
omitted; no registry entry declares a `match` substring list, so the
`match` field is the constant `[]` at the call sites. -/
structure MechSpec where
  key : String
  label : String
  exact : Option (List String)
  canonical : Option String
  dedup_ms : Option Int
  coalesce_ms : Option Int
deriving Repr

/-- `_coalesce_ms_for(mech_cfg)`: declared window or the default 1000 ms
(`MECH_COALESCE_MS` unset). -/
def coalesce_ms_for (spec : MechSpec) : Int :=
  spec.coalesce_ms.getD 1000

/-- `ENCOUNTER_MECHANICS` from `analytics/registry.py`. -/
def ENCOUNTER_MECHANICS : List (String × List MechSpec) :=
  [("gorseval the multifarious",
    [{ key := "Egg", label := "Eggs", exact := some ["Egg", "Egged"],
       canonical := none, dedup_ms := some 500, coalesce_ms := none }]),
   ("slothasor",
    [{ key := "Tantrum", label := "Circle KD",
       exact := some ["Tantrum", "Tripple Circles"],
       canonical := none, dedup_ms := none, coalesce_ms := none }]),
   ("matthias gabrel",
    [{ key := "Spirit", label := "Touched Spirit",
       exact := some ["Spirit", "Spirit hit"],
       canonical := none, dedup_ms := none, coalesce_ms := none }]),
   ("keep construct",
    [{ key := "bad_white_orb", label := "Wrong orb collected - white",
       exact := some ["BW.Orb", "Bad White Orb"],
       canonical := none, dedup_ms := none, coalesce_ms := none },
     { key := "bad_red_orb", label := "Wrong orb collected - red",
       exact := some ["BR.Orb", "Bad Red Orb"],
       canonical := none, dedup_ms := none, coalesce_ms := none }]),
   ("samarog",
    [{ key := "sweep", label := "Swept", exact := some ["Swp", "Prisoner Sweep"],
       canonical := none, dedup_ms := none, coalesce_ms := none },
     { key := "spear return", label := "Returning Spears",
       exact := some ["S.Rt", "Spear Return"],
       canonical := none, dedup_ms := none, coalesce_ms := none },
     { key := "shockwave_from_spears", label := "Shockwaved",
       exact := some ["Schk.Wv", "Shockwave from Spears"],
       canonical := none, dedup_ms := none, coalesce_ms := none }]),
   ("deimos",
    [{ key := "Oil T.", label := "Oil Trigger", exact := some ["Oil T.", "Oil Trigger"],
       canonical := none, dedup_ms := some 500, coalesce_ms := none },
     { key := "Pizza", label := "Pizza",
       exact := some ["Pizza", "Cascading Pizza attack"],
       canonical := none, dedup_ms := some 500, coalesce_ms := none }]),
   ("Soulless Horror",
    [{ key := "sh_scythe_hits", label := "Scythed", exact := some ["Scythe"],
       canonical := some "scythe", dedup_ms := some 500, coalesce_ms := none }]),
   ("statue of darkness",
    [{ key := "hard_cc_judge", label := "CC'ed",
       exact := some ["Hard CC Judge", "CC Judge"],
       canonical := none, dedup_ms := none, coalesce_ms := none }]),
   ("dhuum",
    [{ key := "dhuum_dip", label := "Dip AoE", exact := some ["Dip", "Dip AoE"],
       canonical := none, dedup_ms := some 10000, coalesce_ms := none },
     { key := "crack", label := "Stood in Cracks",
       exact := some ["Crack", "Cull (Fearing Fissure)"],
       canonical := none, dedup_ms := none, coalesce_ms := none },
     { key := "rending_swipe_hit", label := "Swiped",
       exact := some ["Enf.Swipe", "Rending Swipe Hit"],
       canonical := none, dedup_ms := none, coalesce_ms := none }]),
   ("conjured amalgamate",
    [{ key := "arm_slam", label := "Arm Slammed",
       exact := some ["Arm Slam", "Arm Slam: Pulverize"],
       canonical := none, dedup_ms := none, coalesce_ms := none }]),
   ("twin largos",
    [{ key := "float", label := "Bubbled", exact := some ["Flt"],
       canonical := none, dedup_ms := some 1000, coalesce_ms := none },
     { key := "steal", label := "Boon Steal", exact := some ["Steal", "Boon Steal"],
       canonical := none, dedup_ms := some 1000, coalesce_ms := none }]),
   ("qadim",
    [{ key := "qadim_hitbox_aoe", label := "Stood in Qadim hitbox",
       exact := some ["Q.Hitbox", "Qadim Hitbox AoE"],
       canonical := none, dedup_ms := none, coalesce_ms := none }]),
   ("cardinal adina",
    [{ key := "radiant_blindness", label := "Blinded",
       exact := some ["R.Blind", "Radiant Blindness"],
       canonical := none, dedup_ms := none, coalesce_ms := none }]),
   ("cardinal sabir",
    [{ key := "shockwave", label := "Shockwaved",
       exact := some ["Shockwave", "Shockwave Hit"],
       canonical := none, dedup_ms := none, coalesce_ms := none },
     { key := "pushed", label := "Pushed during CC",
       exact := some ["Pushed", "Pushed by rotating breakbar"],
       canonical := none, dedup_ms := none, coalesce_ms := none }]),
   ("qadim the peerless",
    [{ key := "qtp_lightning", label := "Hit by Expanding Lightning",
       exact := some ["Lght.H", "Lightning Hit"],
       canonical := none, dedup_ms := none, coalesce_ms := none },
     { key := "Magma.F", label := "Stood in magma field", exact := some ["Magma.F"],
       canonical := none, dedup_ms := none, coalesce_ms := some 1000 },
     { key := "S.Magma.F", label := "Stood in Lightning fire puddle",
       exact := some ["S.Magma.F"],
       canonical := none, dedup_ms := none, coalesce_ms := some 1000 },
     { key := "pylon_magma", label := "Stood in Pylon fire",
       exact := some ["P.Magma", "Pylon Magma"],
       canonical := none, dedup_ms := none, coalesce_ms := none },
     { key := "dome_knockback", label := "Pylon knockback",
       exact := some ["Dome.KB", "Dome Knockback"],
       canonical := none, dedup_ms := none, coalesce_ms := none }])]

/-- The per-spec counts used by `enrich_upload`: the collapsed counter
when the spec declares `coalesce_ms`, else the legacy collector. -/
def specCounts (j : JVal) (spec : MechSpec) : List (String × Nat) :=
  if spec.coalesce_ms.isSome then
    collect_mechanic_counts_collapsed j spec.exact [] (coalesce_ms_for spec)
  else
    collect_mechanic_counts j [] spec.exact spec.canonical spec.dedup_ms

/-- The rows `enrich_upload` computes for one report: global per-player
metrics, then registry mechanics for every matching encounter key;
`(actor, metric_key, value)` triples. -/
def computeRows (j : JVal) : List (String × String × Int) :=
  let globalRows :=
    (players j).foldr
      (fun p acc =>
        match p with
        | .obj _ =>
            let a := actor_name p
            (a, "downs", player_downs p) :: (a, "deaths", player_deaths p) ::
            (a, "resurrects", player_resurrects p) ::
            (a, "boss_dps", player_boss_dps p) :: acc
        | _ => acc)
      []
  let bName := boss_name j
  let mechRows :=
    ENCOUNTER_MECHANICS.foldr
      (fun ks acc =>
        if boss_key_matches bName ks.1 then
          (ks.2.foldr
            (fun spec acc' =>
              ((specCounts j spec).map (fun ac => (ac.1, spec.key, (ac.2 : Int)))) ++ acc')
            []) ++ acc
        else acc)
      []
  globalRows ++ mechRows

/-- One row of the `metrics` table. -/
structure MetricRow where
  upload_id : Int
  boss_name : String
  actor : String
  metric_key : String
  value : Int
deriving Repr, DecidableEq

/-- The metric rows `enrich_upload` inserts for one upload:
`(upload_id, boss, actor, metric_key, value)`, with the caller's
`upload_id` on every row. -/
def enrichRows (uploadId : Int) (j : JVal) : List MetricRow :=
  (computeRows j).map (fun akv =>
    { upload_id := uploadId, boss_name := boss_name j, actor := akv.1,
      metric_key := akv.2.1, value := akv.2.2 })

/-- `enrich_upload`'s database write: delete every metric row of the
upload, then insert the freshly computed rows, in one transaction. -/
def enrichWrite (db : List MetricRow) (uploadId : Int) (j : JVal) : List MetricRow :=
  (db.filter (fun r => r.upload_id ≠ uploadId)) ++ enrichRows uploadId j

/-- Outcome of the dict branch of `_coerce_payload_to_json`: return the
payload, or recurse on a permalink string (a network fetch, modelled as
an explicit outcome). -/
inductive CoerceStep where
  | ret : JVal → CoerceStep
  | fetchLink : String → CoerceStep
deriving Repr

/-- The dict branch of `_coerce_payload_to_json(payload)`: keep a payload
that has a player list; otherwise follow a truthy
`permalink`/`permaLink`/`id` string; otherwise return the dict as-is. -/
def coerce_payload_dict (kvs : List (String × JVal)) : CoerceStep :=
  let payload : JVal := .obj kvs
  match payload.get "players" with
  | some (.arr _) => .ret (.obj kvs)
  | _ =>
      match firstTruthy [payload.get "permalink", payload.get "permaLink",
                         payload.get "id"] with
      | some (.str s) => .fetchLink s
      | _ => .ret (.obj kvs)

/-- A value read back from a SQLite column (`_truthy_success`'s cases). -/
inductive SqlVal where
  | null : SqlVal
  | b : Bool → SqlVal
  | i : Int → SqlVal
  | s : String → SqlVal
deriving Repr, DecidableEq

/-- `_truthy_success(val)` in `analytics/service.py`. -/
def truthy_success : SqlVal → Bool
  | .null => false
  | .b x => x
  | .i n => n != 0
  | .s t => ["1", "true", "t", "yes", "y"].contains (asciiLower (pyStrip t))

/-- One row of the `uploads` table as read by `build_event_metrics`
(`SELECT id, boss_name, success, boss_id, time_utc ... ORDER BY
datetime(time_utc) ASC`); the list the model folds over is taken in that
chronological order, so `time_utc` itself is not carried. -/
structure UploadRec where
  id : Int
  boss_name : Option String
  success : SqlVal
  boss_id : Option Int
deriving Repr, DecidableEq

/-- `(int(boss_id or -1), str(boss_name or ""))`: the per-boss key
(Python `or` treats a 0 boss id like NULL). -/
def bossKeyOf (u : UploadRec) : Int × String :=
  ((match u.boss_id with
    | some n => if n = 0 then -1 else n
    | none => -1),
   u.boss_name.getD "")

/-- The `first_success_by_boss` loop of `build_event_metrics`, with the
map built so far as accumulator: the first upload with truthy success
per distinct boss key wins. -/
def firstSuccessAux (acc : List ((Int × String) × Int)) :
    List UploadRec → List ((Int × String) × Int)
  | [] => acc
  | u :: us =>
      if truthy_success u.success && (acc.lookup (bossKeyOf u)).isNone then
        firstSuccessAux (acc ++ [(bossKeyOf u, u.id)]) us
      else firstSuccessAux acc us

/-- `first_success_by_boss` for a chronologically ordered upload list. -/
def first_success_by_boss (ups : List UploadRec) : List ((Int × String) × Int) :=
  firstSuccessAux [] ups

/-- The `SELECT actor, value ... metric_key = 'boss_dps' ORDER BY value
DESC LIMIT 1` query: the first row attaining the maximal value (SQLite
leaves the order among ties unspecified; the model keeps table order). -/
def selectTopDps (metrics : List MetricRow) (uid : Int) : Option MetricRow :=
  (metrics.filter (fun r => r.upload_id = uid ∧ r.metric_key = "boss_dps")).foldl
    (fun best r =>
      match best with
      | none => some r
      | some b => if r.value > b.value then some r else best)
    none

/-- The `top_dps_per_encounter` figure of `build_event_metrics`: one
`(boss_name, actor, value)` triple per first-success upload. -/
def build_top_dps (ups : List UploadRec) (metrics : List MetricRow) :
    List (String × String × Int) :=
  (first_success_by_boss ups).foldr
    (fun kv acc =>
      match selectTopDps metrics kv.2 with
      | some top => (kv.1.2, top.actor, top.value) :: acc
      | none => acc)
    []

/-- `upload_to_dps_report` (`services/upload_service.py`) response
handling: `parsedBody` models `json.loads` of the HTTP 200 body (`none`
when it raises).  Any non-200 status — including 429 and 5xx — yields
`None`; an HTTP 200 body that parses is returned *unchecked*. -/
def upload_to_dps_report (status : Nat) (parsedBody : Option JVal) : Option JVal :=
  if status == 429 || status ≥ 500 || status ≠ 200 then none
  else parsedBody

/-- `settings.PENDING_MAX_ATTEMPTS` (config.py default). -/
def PENDING_MAX_ATTEMPTS : Nat := 12

/-- `settings.PENDING_BASE_BACKOFF` in seconds (config.py default). -/
def PENDING_BASE_BACKOFF : Int := 60

/-- Persistent-queue effect of `_process_one_pending` on a failed item. -/
inductive PendingAction where
  | delete : PendingAction
  | update : Nat → Int → PendingAction
deriving Repr, DecidableEq

/-- The failure branch of `_process_one_pending`: increment attempts;
drop at the maximum, else persist the new attempt count with
`next_retry = now + base * 2^(attempts-1)`
(`_update_pending_retry`'s timestamp arithmetic, in seconds). -/
def process_pending_failure (attempts : Nat) (now : Int) : PendingAction :=
  let attempts' := attempts + 1
  if attempts' ≥ PENDING_MAX_ATTEMPTS then .delete
  else .update attempts' (now + PENDING_BASE_BACKOFF * 2 ^ (attempts' - 1))

/-! ### File-watch upload session (`services/session.py`)

The polling loop is modelled as a state machine: each poll round carries
the wall-clock time, the directory walk's result (path, mtime, size; a
`none` mtime models `os.path.getmtime` raising) and the outcome each
upload attempt would have.  `attempted` is the trace of upload attempts
(calls reaching `_try_upload`); `enqueued` the trace of hand-offs to the
persistent retry queue. -/

/-- The watched log suffixes. -/
def logSuffixes : List String := [".zevtc", ".evtc", ".evtc.zip"]

/-- `fn.lower().endswith(suffixes)`. -/
def hasLogSuffix (p : String) : Bool :=
  logSuffixes.any (fun suf => strEndsWith (asciiLower p) suf)

/-- Session parameters: event window bounds (epoch seconds),
`settings.FILE_SETTLE_SECONDS` and the session's `max_attempts`.
(`EventSession` also declares `base_backoff = 8`, which no code path
reads.) -/
structure SessCfg where
  start : Int
  endAt : Int
  settleSeconds : Int
  maxAttempts : Nat
deriving Repr

/-- `EventSession.max_attempts`. -/
def SESSION_MAX_ATTEMPTS : Nat := 5

/-- `settings.FILE_SETTLE_SECONDS` (config.py default). -/
def FILE_SETTLE_SECONDS : Int := 5

/-- `EventSession.base_backoff`: declared by the source and never read
by it. -/
def SESSION_BASE_BACKOFF : Int := 8

/-- `EventSession._within_event_window(mtime)`: within 5 minutes before
start and 15 minutes after end. -/
def within_event_window (cfg : SessCfg) (mtime : Int) : Bool :=
  decide (cfg.start - 300 ≤ mtime ∧ mtime ≤ cfg.endAt + 900)

/-- One file observed during one poll's directory walk. -/
structure PollFile where
  path : String
  mtime : Option Int
  size : Int
deriving Repr

/-- The session's mutable state (`seen`, `_size_cache`, `_last_seen`,
`retry_state`, `results`) plus the two observable traces.  The
per-file retry state holds *only* an attempt count — exactly the shape
the source stores. -/
structure SessState where
  seen : List String
  sizeCache : List (String × Int)
  lastSeen : List (String × Int)
  retryState : List (String × Nat)
  results : List String
  enqueued : List String
  attempted : List String
deriving Repr

/-- `EventSession._try_upload(full)`: on success record the result and
resolve the file (the Upload row insert and enrichment have no effect on
session state); on failure increment the in-memory attempt count, and at
`max_attempts` resolve the file and hand it to the persistent queue. -/
def try_upload (cfg : SessCfg) (st : SessState) (f : String) (ok : Bool) : SessState :=
  let st := { st with attempted := st.attempted ++ [f] }
  if ok then
    { st with results := st.results ++ [f], seen := setAdd st.seen f,
              retryState := dictDel st.retryState f }
  else
    let attempts := ((st.retryState.lookup f).getD 0) + 1
    if attempts ≥ cfg.maxAttempts then
      { st with seen := setAdd st.seen f, retryState := dictDel st.retryState f,
                enqueued := st.enqueued ++ [f] }
    else
      { st with retryState := dictSet st.retryState f attempts }

/-- Processing of one walked file inside one poll iteration of
`EventSession._run`: suffix filter, window filter (out-of-window files
are marked seen and dropped from retry state), two-poll size stability,
settle duration, the already-handled check, then the upload attempt. -/
def pollFile (cfg : SessCfg) (now : Int) (ok : String → Bool) (st : SessState)
    (f : PollFile) : SessState :=
  if !hasLogSuffix f.path then st
  else
    match f.mtime with
    | none => st
    | some m =>
        if !within_event_window cfg m then
          { st with seen := setAdd st.seen f.path,
                    retryState := dictDel st.retryState f.path }
        else
          if (st.sizeCache.lookup f.path) ≠ some f.size then
            { st with sizeCache := dictSet st.sizeCache f.path f.size,
                      lastSeen := dictSet st.lastSeen f.path now }
          else
            let settledFor := now - ((st.lastSeen.lookup f.path).getD now)
            if settledFor < cfg.settleSeconds then st
            else if f.path ∈ st.seen ∧ (st.retryState.lookup f.path).isNone then st
            else try_upload cfg st f.path (ok f.path)

/-- One poll round: the wall-clock time, the walk's files, and the
outcome an upload attempt would have in this round. -/
structure PollRound where
  now : Int
  files : List PollFile
  ok : String → Bool

/-- One iteration of the polling loop over the walked files. -/
def pollStep (cfg : SessCfg) (st : SessState) (r : PollRound) : SessState :=
  r.files.foldl (pollFile cfg r.now r.ok) st

/-- The end-of-session final sweep: enqueue every suffix-matching,
not-yet-seen file whose mtime is readable and within the event window. -/
def finalSweep (cfg : SessCfg) (files : List PollFile) (st : SessState) : SessState :=
  let candidates := files.filterMap (fun f =>
    if !hasLogSuffix f.path then none
    else if f.path ∈ st.seen then none
    else
      match f.mtime with
      | none => none
      | some m => if within_event_window cfg m then some f.path else none)
  { st with enqueued := st.enqueued ++ candidates }

/-- `EventSession._run`: seed `seen` with every suffix-matching file
already under the directory root, run the poll rounds, then the final
sweep.  The loop's exit condition (grace expiry / stop signal) only
bounds which rounds happen, so the rounds are an explicit input. -/
def runSession (cfg : SessCfg) (initialPaths : List String)
    (rounds : List PollRound) (finalFiles : List PollFile) : SessState :=
  finalSweep cfg finalFiles (rounds.foldl (pollStep cfg) (initSessState initialPaths))
where
  /-- The state at loop start: `seen` seeded with every suffix-matching
  file already under the directory root. -/
  initSessState (initialPaths : List String) : SessState :=
    { seen := initialPaths.filter hasLogSuffix, sizeCache := [], lastSeen := [],
      retryState := [], results := [], enqueued := [], attempted := [] }

/-! ### Spec-side definitions (for refinement-style claims) and the
concrete inputs the theorems evaluate. -/

/-- Spec-side count for the collapsed collector, written from the spec's
words: for each matching mechanic entry, the actor's sorted hit times
collapsed by the gap window, summed across the matching entries. -/
def spec_collapsed_total (ei : JVal) (exact_names : Option (List String))
    (substrings : List String) (gap : Int) (actor : String) : Nat :=
  ((mechanicsOf ei).enum.map (fun im =>
    match im.2 with
    | .obj _ =>
        if match_mech_names im.2 exact_names substrings then
          collapse_occurrences
            (((collect_mechanic_actor_times ei im.1 im.2).lookup actor).getD []) gap
        else 0
    | _ => 0)).sum

/-- The every-hit-out-of-window condition of C8, per walked file: the
file either is a different path, or its mtime is unreadable or outside
the event window. -/
def fileOutOfWindow (cfg : SessCfg) (p : String) (f : PollFile) : Bool :=
  f.path != p ||
    (match f.mtime with
     | some m => !within_event_window cfg m
     | none => true)

/-- C8's hypothesis over a whole run: every observation of `p`, in every
poll round and in the final sweep, is out-of-window (or unreadable). -/
def outOfWindowEverywhere (cfg : SessCfg) (p : String) (rounds : List PollRound)
    (ff : List PollFile) : Bool :=
  rounds.all (fun r => r.files.all (fileOutOfWindow cfg p)) &&
    ff.all (fileOutOfWindow cfg p)

/-- Whether some poll round walks `p` with a readable mtime (and `p` has
a watched suffix), i.e. the polling loop actually processes `p`. -/
def appearsWithMtime (p : String) (rounds : List PollRound) : Bool :=
  hasLogSuffix p &&
    rounds.any (fun r => r.files.any (fun f => f.path == p && f.mtime.isSome))

/-- C10's first hypothesis: the payload has no player list. -/
def noPlayerList (kvs : List (String × JVal)) : Bool :=
  match kvs.lookup "players" with
  | some (.arr _) => false
  | _ => true

/-- C10's second hypothesis: no non-empty string under
`permalink`/`permaLink`/`id`. -/
def noUsableLink (kvs : List (String × JVal)) : Bool :=
  ["permalink", "permaLink", "id"].all (fun k =>
    match kvs.lookup k with
    | some (.str s) => s == ""
    | _ => true)

/-- C1's failing input: one matching mechanic entry reporting the same
actor twice at the same timestamp, counted with the Gorseval `Egg` spec
(`exact = ["Egg", "Egged"]`, `dedup_ms = 500`). -/
def c1Report : JVal := .obj
  [("players", .arr [.obj [("name", .str "a"), ("account", .str "A.1")]]),
   ("mechanics", .arr [.obj
     [("name", .str "Egg"),
      ("mechanicsData", .arr
        [.obj [("actor", .str "a"), ("time", .num 1000)],
         .obj [("actor", .str "a"), ("time", .num 1000)]])]])]

/-- C3's session: a 10000-second event starting at epoch 0, with the
source's settle (5 s) and max-attempt (5) values. -/
def c3Cfg : SessCfg :=
  { start := 0, endAt := 10000, settleSeconds := FILE_SETTLE_SECONDS,
    maxAttempts := SESSION_MAX_ATTEMPTS }

/-- C3's walked file: an in-window log of constant size. -/
def c3File : PollFile := { path := "a.zevtc", mtime := some 50, size := 10 }

/-- C3's poll rounds, 5 s apart (the source's poll cadence), with every
upload attempt failing. -/
def c3Rounds : List PollRound :=
  [{ now := 100, files := [c3File], ok := fun _ => false },
   { now := 105, files := [c3File], ok := fun _ => false },
   { now := 110, files := [c3File], ok := fun _ => false }]

/-- C5's uploads: three chronological attempts at one boss — a failure,
the first success, a later success. -/
def c5Uploads : List UploadRec :=
  [{ id := 1, boss_name := some "Dhuum", success := .i 0, boss_id := some 19450 },
   { id := 2, boss_name := some "Dhuum", success := .i 1, boss_id := some 19450 },
   { id := 3, boss_name := some "Dhuum", success := .i 1, boss_id := some 19450 }]

/-- C5's metric rows: a `boss_dps` top actor for each upload. -/
def c5Metrics : List MetricRow :=
  [{ upload_id := 1, boss_name := "Dhuum", actor := "First.1111",
     metric_key := "boss_dps", value := 30000 },
   { upload_id := 1, boss_name := "Dhuum", actor := "Other.9999",
     metric_key := "boss_dps", value := 21000 },
   { upload_id := 2, boss_name := "Dhuum", actor := "Second.2222",
     metric_key := "boss_dps", value := 25000 },
   { upload_id := 2, boss_name := "Dhuum", actor := "Other.9999",
     metric_key := "boss_dps", value := 19000 },
   { upload_id := 3, boss_name := "Dhuum", actor := "Third.3333",
     metric_key := "boss_dps", value := 28000 }]

/-- C7's failing body: HTTP 200 whose JSON parses to a list. -/
def c7Body : JVal := .arr [.num 1, .num 2, .num 3]

/-- C8's witness session: event window [0, 0]; the file's mtime is 1200 s
(20 minutes) after session end, far outside the 900-s tail. -/
def c8Cfg : SessCfg :=
  { start := 0, endAt := 0, settleSeconds := FILE_SETTLE_SECONDS,
    maxAttempts := SESSION_MAX_ATTEMPTS }

/-- C8's witness file: out-of-window (mtime 1200 > end + 900). -/
def c8File : PollFile := { path := "late.zevtc", mtime := some 1200, size := 7 }

/-- C8's witness poll rounds: the out-of-window file is walked twice,
with uploads reporting success if they were ever attempted. -/
def c8Rounds : List PollRound :=
  [{ now := 10, files := [c8File], ok := fun _ => true },
   { now := 15, files := [c8File], ok := fun _ => true }]

/-- C9's witness: a pre-existing in-window log file seeded as seen. -/
def c9File : PollFile := { path := "old.zevtc", mtime := some 100, size := 42 }

/-- C9's witness poll rounds: the seeded file is walked repeatedly,
stable and in-window, with uploads reporting success if attempted. -/
def c9Rounds : List PollRound :=
  [{ now := 100, files := [c9File], ok := fun _ => true },
   { now := 105, files := [c9File], ok := fun _ => true },
   { now := 110, files := [c9File], ok := fun _ => true }]

/-- C10's witness payload: an object with no players and only a falsy
`id`. -/
def c10Kvs : List (String × JVal) := [("id", .num 0), ("note", .str "x")]

/-! ## Library lemmas about the dict / counter operations -/

theorem lookup_dictSet {β : Type} (m : List (String × β)) (k k' : String) (v : β) :
    (dictSet m k v).lookup k' = if k' = k then some v else m.lookup k' := by
  induction m with
  | nil =>
      by_cases h : k' = k
      · simp [dictSet, List.lookup_cons, h]
      · simp [dictSet, List.lookup_cons, beq_false_of_ne h, h]
  | cons hd t ih =>
      obtain ⟨hk, hv⟩ := hd
      by_cases h1 : hk = k
      · subst h1
        by_cases h2 : k' = hk
        · subst h2; simp [dictSet, List.lookup_cons]
        · simp [dictSet, List.lookup_cons, beq_false_of_ne h2, h2]
      · by_cases h2 : k' = hk
        · subst h2; simp [dictSet, h1, List.lookup_cons]
        · simp [dictSet, h1, List.lookup_cons, beq_false_of_ne h2, ih]

theorem lookup_dictDel {β : Type} (m : List (String × β)) (k k' : String) :
    (dictDel m k).lookup k' = if k' = k then none else m.lookup k' := by
  induction m with
  | nil => simp [dictDel]
  | cons hd t ih =>
      obtain ⟨hk, hv⟩ := hd
      by_cases h1 : hk = k
      · subst h1
        by_cases h2 : k' = hk
        · subst h2; simp [dictDel, ih]
        · simp [dictDel, List.lookup_cons, beq_false_of_ne h2, ih]
      · by_cases h2 : k' = hk
        · subst h2
          simp [dictDel, h1, List.lookup_cons, h1]
        · simp [dictDel, h1, List.lookup_cons, beq_false_of_ne h2, ih]

theorem mem_setAdd (s : List String) (x y : String) :
    y ∈ setAdd s x ↔ y ∈ s ∨ y = x := by
  unfold setAdd
  by_cases h : x ∈ s
  · simp [h]; intro hy; subst hy; exact h
  · simp [h]

theorem mem_setAdd_self (s : List String) (x : String) : x ∈ setAdd s x := by
  simp [mem_setAdd]

theorem setAdd_mono {s : List String} {y : String} (x : String) (h : y ∈ s) :
    y ∈ setAdd s x := by
  simp [mem_setAdd, h]

theorem mergedGroups_ne_nil (gap t : Int) (ts : List Int) :
    mergedGroups gap (t :: ts) ≠ [] := by
  cases ts with
  | nil => simp [mergedGroups]
  | cons t' ts' =>
      unfold mergedGroups
      rcases h : mergedGroups gap (t' :: ts') with _ | ⟨g, gs⟩ <;> simp
      split <;> simp

theorem mergedGroups_cons_cons (gap t t' : Int) (ts : List Int) :
    mergedGroups gap (t :: t' :: ts) =
      match mergedGroups gap (t' :: ts) with
      | [] => [[t]]
      | g :: gs => if t' - t > gap then [t] :: g :: gs else (t :: g) :: gs := rfl

theorem mergedGroups_length_cons (gap t t' : Int) (ts : List Int) :
    (mergedGroups gap (t :: t' :: ts)).length =
      (if t' - t > gap then 1 else 0) + (mergedGroups gap (t' :: ts)).length := by
  rw [mergedGroups_cons_cons]
  rcases h : mergedGroups gap (t' :: ts) with _ | ⟨g, gs⟩
  · exact absurd h (mergedGroups_ne_nil gap t' ts)
  · simp only [h]
    split <;> simp_arith

theorem collapseLoop_eq (gap : Int) :
    ∀ (ts : List Int) (prev : Int) (occ : Nat),
      collapseLoop gap prev occ ts + 1 = occ + (mergedGroups gap (prev :: ts)).length := by
  intro ts
  induction ts with
  | nil => intro prev occ; simp [collapseLoop, mergedGroups]
  | cons t ts ih =>
      intro prev occ
      rw [collapseLoop, ih, mergedGroups_length_cons]
      split <;> omega


theorem collapse_eq_mergedGroups (ts : List Int) (gap : Int) :
    collapse_occurrences ts gap = (mergedGroups gap ts).length := by
  cases ts with
  | nil => rfl
  | cons t ts' =>
      have h := collapseLoop_eq gap ts' t 1
      show collapseLoop gap t 1 ts' = _
      omega

theorem alistGetD_alistAdd (m : List (String × Nat)) (k a : String) (v : Nat) :
    alistGetD (alistAdd m k v) a = alistGetD m a + (if a = k then v else 0) := by
  induction m with
  | nil =>
      by_cases h : a = k
      · simp [alistAdd, alistGetD, List.lookup_cons, h]
      · simp [alistAdd, alistGetD, List.lookup_cons, beq_false_of_ne h, h]
  | cons hd t ih =>
      obtain ⟨hk, hv⟩ := hd
      by_cases h1 : hk = k
      · subst h1
        by_cases h2 : a = hk
        · subst h2; simp [alistAdd, alistGetD, List.lookup_cons]
        · simp [alistAdd, alistGetD, List.lookup_cons, beq_false_of_ne h2, h2]
      · by_cases h2 : a = hk
        · subst h2; simp [alistAdd, h1, alistGetD, List.lookup_cons, h1]
        · simp only [alistAdd, if_neg h1]
          simp [alistGetD, List.lookup_cons, beq_false_of_ne h2] at ih ⊢
          exact ih


theorem foldl_preserve {σ α : Type _} {P : σ → Prop} {step : σ → α → σ}
    (h : ∀ s a, P s → P (step s a)) :
    ∀ (l : List α) (s : σ), P s → P (l.foldl step s) := by
  intro l
  induction l with
  | nil => intro s hs; exact hs
  | cons a l ih => intro s hs; exact ih (step s a) (h s a hs)

theorem mem_fst_groupAppend {κ : Type} [DecidableEq κ]
    (m : List (κ × List Int)) (k : κ) (t : Int) (a : κ) :
    a ∈ (groupAppend m k t).map Prod.fst ↔ a ∈ m.map Prod.fst ∨ a = k := by
  induction m with
  | nil => simp [groupAppend]
  | cons hd rest ih =>
      obtain ⟨k', ts⟩ := hd
      by_cases h : k' = k
      · subst h; simp [groupAppend]; tauto
      · simp [groupAppend, h, ih]; tauto

theorem groupAppend_nodup {κ : Type} [DecidableEq κ]
    (m : List (κ × List Int)) (k : κ) (t : Int)
    (h : (m.map Prod.fst).Nodup) : ((groupAppend m k t).map Prod.fst).Nodup := by
  induction m with
  | nil => simp [groupAppend]
  | cons hd rest ih =>
      obtain ⟨k', ts⟩ := hd
      simp only [List.map_cons, List.nodup_cons] at h
      by_cases hk : k' = k
      · subst hk; simpa [groupAppend] using h
      · simp only [groupAppend, if_neg hk, List.map_cons, List.nodup_cons]
        refine ⟨?_, ih h.2⟩
        rw [mem_fst_groupAppend]
        rintro (hmem | rfl)
        · exact h.1 hmem
        · exact hk rfl

theorem lookup_eq_none_of_not_mem_fst {β : Type} (m : List (String × β)) (a : String)
    (h : a ∉ m.map Prod.fst) : m.lookup a = none := by
  induction m with
  | nil => rfl
  | cons hd rest ih =>
      obtain ⟨k, v⟩ := hd
      simp only [List.map_cons, List.mem_cons] at h
      push_neg at h
      simp [List.lookup_cons, beq_false_of_ne h.1, ih h.2]

theorem alistGetD_fold_collapse (gap : Int) (a : String) :
    ∀ (pairs : List (String × List Int)) (tot0 : List (String × Nat)),
      (pairs.map Prod.fst).Nodup →
      alistGetD
        (pairs.foldl (fun tot p => alistAdd tot p.1 (collapse_occurrences p.2 gap)) tot0) a
        = alistGetD tot0 a + collapse_occurrences ((pairs.lookup a).getD []) gap := by
  intro pairs
  induction pairs with
  | nil => intro tot0 _; simp [collapse_occurrences]
  | cons hd rest ih =>
      obtain ⟨k, ts⟩ := hd
      intro tot0 hnd
      simp only [List.map_cons, List.nodup_cons] at hnd
      simp only [List.foldl_cons]
      rw [ih _ hnd.2]
      by_cases ha : a = k
      · subst ha
        rw [lookup_eq_none_of_not_mem_fst rest a hnd.1]
        simp [List.lookup_cons, alistGetD_alistAdd, collapse_occurrences]
      · simp [List.lookup_cons, beq_false_of_ne ha, alistGetD_alistAdd, ha]


theorem sortEach_fst (m : List (String × List Int)) :
    (collect_mechanic_actor_times.sortEach m).map Prod.fst = m.map Prod.fst := by
  induction m with
  | nil => rfl
  | cons hd t ih => simp only [collect_mechanic_actor_times.sortEach, List.map_cons] at *
                    simp [ih]

theorem actor_times_nodup (ei : JVal) (i : Nat) (m : JVal) :
    ((collect_mechanic_actor_times ei i m).map Prod.fst).Nodup := by
  unfold collect_mechanic_actor_times
  split
  · rw [sortEach_fst]
    apply foldl_preserve (P := fun out : List (String × List Int) => (out.map Prod.fst).Nodup)
    · intro s e hs
      repeat' split
      all_goals first | exact groupAppend_nodup _ _ _ hs | exact hs
    · simp
  · rw [sortEach_fst]
    apply foldl_preserve (P := fun out : List (String × List Int) => (out.map Prod.fst).Nodup)
    · intro s e hs
      repeat' split
      all_goals try exact hs
      apply foldl_preserve (P := fun out : List (String × List Int) => (out.map Prod.fst).Nodup)
      · intro s3 e3 hs3
        repeat' split
        all_goals first | exact groupAppend_nodup _ _ _ hs3 | exact hs3
      · exact hs
    · simp

theorem collapsed_outer_fold (ei : JVal) (ex : Option (List String))
    (subs : List String) (gap : Int) (a : String) :
    ∀ (l : List (Nat × JVal)) (tot0 : List (String × Nat)),
      alistGetD
        (l.foldl
          (fun tot im =>
            match im.2 with
            | .obj _ =>
                if match_mech_names im.2 ex subs then
                  (collect_mechanic_actor_times ei im.1 im.2).foldl
                    (fun tot p => alistAdd tot p.1 (collapse_occurrences p.2 gap)) tot
                else tot
            | _ => tot)
          tot0) a
        = alistGetD tot0 a +
          ((l.map (fun im =>
            match im.2 with
            | .obj _ =>
                if match_mech_names im.2 ex subs then
                  collapse_occurrences
                    (((collect_mechanic_actor_times ei im.1 im.2).lookup a).getD []) gap
                else 0
            | _ => 0)).sum) := by
  intro l
  induction l with
  | nil => intro tot0; simp
  | cons im l ih =>
      obtain ⟨i, mj⟩ := im
      intro tot0
      simp only [List.foldl_cons, List.map_cons, List.sum_cons]
      rw [ih]
      cases mj with
      | obj kvs =>
          by_cases hm : match_mech_names (.obj kvs) ex subs
          · simp only [hm, if_true]
            rw [alistGetD_fold_collapse gap a _ tot0 (actor_times_nodup ei i (.obj kvs))]
            omega
          · simp only [Bool.not_eq_true] at hm
            simp only [hm, Bool.false_eq_true, if_false]
            omega
      | null => simp
      | bool b => simp
      | num n => simp
      | str t => simp
      | arr xs => simp

/-! ## C1 -/

/-- C1: the claim says mode-2 per-hit counting never suppresses two hits
recorded by the *same* mechanic entry (same actor, same timestamp would
count twice).  The code's `_already_seen` consults every previously
counted hit for the `(account, canon_key)` partition, regardless of
which entry recorded it, so the second same-entry hit at the same
timestamp IS suppressed: the failing input counts 1, not 2.  (The
function's own docstring — "dedup across *different* mechanic entries" —
agrees with the claim, so this is a code bug.) -/
theorem c1_same_entry_hits_are_deduplicated :
    collect_mechanic_counts c1Report [] (some ["Egg", "Egged"]) none (some 500) =
      [("A.1", 1)] := by rfl

/-! ## C2 -/

/-- C2: the coalesced-occurrence counter.  (i) `_collapse_occurrences`
returns exactly the number of groups obtained by merging consecutive
hits whose gap is ≤ the window (`mergedGroups`, the spec's description);
(ii) on the spec's example `[0, 400, 900, 5000]` ms with a 500 ms window
it returns 2; (iii) the collapsed collector returns, for every actor,
the per-entry collapsed occurrence counts summed across all matching
mechanic entries (`spec_collapsed_total`, written from the spec's
words). -/
theorem c2_collapsed_occurrences_match_spec :
    (∀ (ts : List Int) (gap : Int),
        collapse_occurrences ts gap = (mergedGroups gap ts).length) ∧
    collapse_occurrences [0, 400, 900, 5000] 500 = 2 ∧
    (∀ (ei : JVal) (ex : Option (List String)) (subs : List String) (gap : Int)
        (a : String),
        alistGetD (collect_mechanic_counts_collapsed ei ex subs gap) a =
          spec_collapsed_total ei ex subs gap a) := by
  refine ⟨collapse_eq_mergedGroups, by rfl, ?_⟩
  intro ei ex subs gap a
  unfold collect_mechanic_counts_collapsed spec_collapsed_total
  rw [collapsed_outer_fold]
  simp [alistGetD]

/-! ## C3 -/

/-- C3: the claim says a failed file is not re-attempted before
`base * 2^(attempts-1)` seconds (8 s after one failure).  The session
stores only an attempt count — after the failed attempt at t=105 the
retry state is `[("a.zevtc", 1)]` with no next-eligible time — and the
very next poll at t=110 re-attempts the upload: two attempts 5 s apart,
although `SESSION_BASE_BACKOFF * 2^(1-1) = 8` seconds of backoff are
required by the claim.  (`base_backoff` exists in the source but is
never read; the spec documents the intended behavior.) -/
theorem c3_failed_file_retried_on_next_poll_without_backoff :
    (runSession c3Cfg [] c3Rounds []).attempted = ["a.zevtc", "a.zevtc"] ∧
    ((c3Rounds.take 2).foldl (pollStep c3Cfg) (runSession.initSessState [])).retryState
      = [("a.zevtc", 1)] ∧
    (110 : Int) - 105 < SESSION_BASE_BACKOFF * 2 ^ (1 - 1) := by
  refine ⟨by rfl, by rfl, by decide⟩

/-! ## C4 -/

theorem enrichRows_upload_id (uid : Int) (j : JVal) :
    ∀ r ∈ enrichRows uid j, r.upload_id = uid := by
  intro r hr
  simp only [enrichRows, List.mem_map] at hr
  obtain ⟨akv, _, rfl⟩ := hr
  rfl

/-- C4: `enrich_upload`'s write is delete-all-then-insert for the given
upload id, in one transaction: (i) the write replaces exactly the rows
of that upload; (ii) the rows stored for the upload afterwards are the
freshly computed ones, independent of what was stored before; (iii) so
enriching the same upload twice with the same report yields the
identical metric set (idempotence), with no partial or duplicate
accumulation. -/
theorem c4_enrichment_is_idempotent :
    ∀ (db : List MetricRow) (uid : Int) (j : JVal),
      enrichWrite db uid j =
        (db.filter (fun r => r.upload_id ≠ uid)) ++ enrichRows uid j ∧
      (enrichWrite db uid j).filter (fun r => r.upload_id = uid) = enrichRows uid j ∧
      enrichWrite (enrichWrite db uid j) uid j = enrichWrite db uid j := by
  intro db uid j
  have hall := enrichRows_upload_id uid j
  refine ⟨rfl, ?_, ?_⟩
  · unfold enrichWrite
    rw [List.filter_append]
    have h1 : (db.filter (fun r => r.upload_id ≠ uid)).filter
        (fun r => r.upload_id = uid) = [] := by
      rw [List.filter_filter]
      apply List.filter_eq_nil_iff.mpr
      intro r _
      simp [em]
    have h2 : (enrichRows uid j).filter (fun r => r.upload_id = uid) =
        enrichRows uid j := by
      apply List.filter_eq_self.mpr
      intro r hr
      simpa using hall r hr
    rw [h1, h2, List.nil_append]
  · conv_lhs => rw [enrichWrite, enrichWrite]
    rw [List.filter_append]
    have h1 : (db.filter (fun r => r.upload_id ≠ uid)).filter
        (fun r => r.upload_id ≠ uid) = db.filter (fun r => r.upload_id ≠ uid) := by
      apply List.filter_eq_self.mpr
      intro r hr
      exact (List.mem_filter.mp hr).2
    have h2 : (enrichRows uid j).filter (fun r => r.upload_id ≠ uid) = [] := by
      apply List.filter_eq_nil_iff.mpr
      intro r hr
      simp [hall r hr]
    rw [h1, h2, List.append_nil]
    rfl

/-! ## C5 -/

theorem lookup_append {α β : Type} [BEq α] (l1 l2 : List (α × β)) (key : α) :
    (l1 ++ l2).lookup key =
      match l1.lookup key with
      | some v => some v
      | none => l2.lookup key := by
  induction l1 with
  | nil => simp
  | cons hd t ih =>
      obtain ⟨k, v⟩ := hd
      cases h : key == k <;> simp [List.lookup_cons, h, ih]

theorem firstSuccessAux_lookup (key : Int × String) :
    ∀ (ups : List UploadRec) (acc : List ((Int × String) × Int)),
      (firstSuccessAux acc ups).lookup key =
        match acc.lookup key with
        | some v => some v
        | none =>
            (ups.find? (fun u =>
              truthy_success u.success && decide (bossKeyOf u = key))).map
              UploadRec.id := by
  intro ups
  induction ups with
  | nil =>
      intro acc
      simp only [firstSuccessAux, List.find?_nil, Option.map_none']
      cases acc.lookup key <;> rfl
  | cons u us ih =>
      intro acc
      by_cases hs : truthy_success u.success = true
      · by_cases hk : acc.lookup (bossKeyOf u) = none
        · have hcond : (truthy_success u.success &&
              (acc.lookup (bossKeyOf u)).isNone) = true := by
            simp [hs, hk]
          rw [firstSuccessAux, if_pos hcond, ih]
          by_cases hkey : bossKeyOf u = key
          · subst hkey
            rw [hk, lookup_append]
            rw [hk]
            simp [hs, List.lookup_cons]
          · have h1 : ([((bossKeyOf u), u.id)].lookup key) = none := by
              simp [List.lookup_cons, beq_false_of_ne (Ne.symm hkey)]
            rw [lookup_append, h1]
            have h2 : (List.find? (fun u =>
                truthy_success u.success && decide (bossKeyOf u = key)) (u :: us)) =
                List.find? (fun u =>
                  truthy_success u.success && decide (bossKeyOf u = key)) us := by
              rw [List.find?_cons_of_neg]
              simp [hkey]
            rw [h2]
            cases acc.lookup key <;> rfl
        · have hcond : (truthy_success u.success &&
              (acc.lookup (bossKeyOf u)).isNone) = false := by
            cases h : acc.lookup (bossKeyOf u)
            · exact absurd h hk
            · simp [h]
          rw [firstSuccessAux, if_neg (by simp [hcond]), ih]
          by_cases hkey : bossKeyOf u = key
          · subst hkey
            cases h : acc.lookup (bossKeyOf u)
            · exact absurd h hk
            · rfl
          · have h2 : (List.find? (fun u =>
                truthy_success u.success && decide (bossKeyOf u = key)) (u :: us)) =
                List.find? (fun u =>
                  truthy_success u.success && decide (bossKeyOf u = key)) us := by
              rw [List.find?_cons_of_neg]
              simp [hkey]
            rw [h2]
      · have hcond : (truthy_success u.success &&
            (acc.lookup (bossKeyOf u)).isNone) = false := by
          simp [Bool.not_eq_true] at hs
          simp [hs]
        rw [firstSuccessAux, if_neg (by simp [hcond]), ih]
        have h2 : (List.find? (fun u =>
            truthy_success u.success && decide (bossKeyOf u = key)) (u :: us)) =
            List.find? (fun u =>
              truthy_success u.success && decide (bossKeyOf u = key)) us := by
          rw [List.find?_cons_of_neg]
          simp [Bool.not_eq_true] at hs
          simp [hs]
        rw [h2]

/-- C5: the top-DPS-per-encounter figure.  (i) For every chronologically
ordered upload list and every (boss id, boss name) key, the upload the
aggregator selects is exactly the *first* upload marked successful for
that key (`List.find?` over the chronological order), so every later
successful upload and every failed upload is excluded; (ii) on the
3-upload scenario (failure, first success, later success for one boss),
the figure shows only upload #2's top `boss_dps` actor and value. -/
theorem c5_top_dps_uses_first_success_per_boss :
    (∀ (ups : List UploadRec) (key : Int × String),
        (first_success_by_boss ups).lookup key =
          (ups.find? (fun u =>
            truthy_success u.success && decide (bossKeyOf u = key))).map
            UploadRec.id) ∧
    build_top_dps c5Uploads c5Metrics = [("Dhuum", "Second.2222", 25000)] := by
  refine ⟨?_, by rfl⟩
  intro ups key
  have h := firstSuccessAux_lookup key ups []
  simpa [first_success_by_boss] using h

/-! ## C6 -/

/-- C6: the persistent retry queue's failure handling.  With the
incremented attempt count still below the configured maximum (12), the
item is rescheduled at `now + base * 2^(attempts-1)` seconds with the
updated count persisted; at or above the maximum it is deleted; an item
failing for the 3rd time (attempt count 2 before the failure) is
rescheduled `60 * 2^2 = 240` seconds after the attempt. -/
theorem c6_pending_queue_backoff :
    ∀ (attempts : Nat) (now : Int),
      (attempts + 1 < PENDING_MAX_ATTEMPTS →
        process_pending_failure attempts now =
          PendingAction.update (attempts + 1)
            (now + PENDING_BASE_BACKOFF * 2 ^ ((attempts + 1) - 1))) ∧
      (PENDING_MAX_ATTEMPTS ≤ attempts + 1 →
        process_pending_failure attempts now = PendingAction.delete) ∧
      process_pending_failure 2 now = PendingAction.update 3 (now + 240) := by
  intro attempts now
  refine ⟨?_, ?_, ?_⟩
  · intro h
    unfold process_pending_failure
    rw [if_neg (by omega)]
  · intro h
    unfold process_pending_failure
    rw [if_pos h]
  · unfold process_pending_failure
    norm_num [PENDING_MAX_ATTEMPTS, PENDING_BASE_BACKOFF]

/-! ## C7 -/

/-- C7: the claim says an HTTP 200 response whose body parses to a
non-object (here a JSON list) yields a failure (no parsed report).  The
code returns `json.loads`' result unchecked, so the non-object value
itself — truthy, hence treated as a parsed report by callers — is
returned.  (This contradicts the function's own `-> Optional[dict]`
annotation; the claim matches the intent.) -/
theorem c7_http200_non_object_body_is_returned :
    upload_to_dps_report 200 (some c7Body) = some c7Body ∧
    c7Body.isObj = false ∧ c7Body.truthy = true := by
  refine ⟨by rfl, by rfl, by rfl⟩

/-! ## Session lemmas (C8, C9) -/

theorem foldl_preserve_of_mem {σ α : Type _} {P : σ → Prop} {step : σ → α → σ} :
    ∀ (l : List α), (∀ a ∈ l, ∀ s, P s → P (step s a)) →
      ∀ s, P s → P (l.foldl step s) := by
  intro l
  induction l with
  | nil => intro _ s hs; exact hs
  | cons a l ih =>
      intro h s hs
      exact ih (fun b hb => h b (List.mem_cons_of_mem a hb)) _
        (h a (List.mem_cons_self a l) s hs)

theorem foldl_attain {σ α : Type _} {P : σ → Prop} {step : σ → α → σ}
    (hpres : ∀ s a, P s → P (step s a)) :
    ∀ (l : List α) (a : α), a ∈ l → (∀ s, P (step s a)) →
      ∀ s, P (l.foldl step s) := by
  intro l
  induction l with
  | nil => intro a ha; exact absurd ha (List.not_mem_nil a)
  | cons b l ih =>
      intro a ha hset s
      rcases List.mem_cons.mp ha with rfl | ha'
      · exact foldl_preserve hpres l _ (hset s)
      · exact ih a ha' hset (step s b)

theorem try_upload_attempted (cfg : SessCfg) (st : SessState) (f : String) (ok : Bool) :
    (try_upload cfg st f ok).attempted = st.attempted ++ [f] := by
  unfold try_upload
  dsimp only
  repeat' split
  all_goals rfl

theorem mem_try_upload_enqueued {x : String} (cfg : SessCfg) (st : SessState)
    (f : String) (ok : Bool) :
    x ∈ (try_upload cfg st f ok).enqueued → x ∈ st.enqueued ∨ x = f := by
  unfold try_upload
  dsimp only
  repeat' split
  all_goals intro h
  · exact Or.inl h
  · rcases List.mem_append.mp h with h1 | h2
    · exact Or.inl h1
    · exact Or.inr (by simpa using h2)
  · exact Or.inl h

theorem mem_pollFile_attempted {x : String} (cfg : SessCfg) (now : Int)
    (ok : String → Bool) (st : SessState) (f : PollFile) :
    x ∈ (pollFile cfg now ok st f).attempted → x ∈ st.attempted ∨ x = f.path := by
  unfold pollFile
  dsimp only
  repeat' split
  all_goals intro h
  all_goals try exact Or.inl h
  rw [try_upload_attempted] at h
  rcases List.mem_append.mp h with h1 | h2
  · exact Or.inl h1
  · exact Or.inr (by simpa using h2)

theorem mem_pollFile_enqueued {x : String} (cfg : SessCfg) (now : Int)
    (ok : String → Bool) (st : SessState) (f : PollFile) :
    x ∈ (pollFile cfg now ok st f).enqueued → x ∈ st.enqueued ∨ x = f.path := by
  unfold pollFile
  dsimp only
  repeat' split
  all_goals intro h
  all_goals try exact Or.inl h
  exact mem_try_upload_enqueued cfg _ f.path (ok f.path) h

theorem pollFile_seen_mono {x : String} (cfg : SessCfg) (now : Int)
    (ok : String → Bool) (st : SessState) (f : PollFile) (h : x ∈ st.seen) :
    x ∈ (pollFile cfg now ok st f).seen := by
  unfold pollFile try_upload
  dsimp only
  repeat' split
  all_goals first | exact h | exact setAdd_mono _ h

theorem pollFile_out_of_window_seen (cfg : SessCfg) (now : Int)
    (ok : String → Bool) (st : SessState) (f : PollFile)
    (hsuf : hasLogSuffix f.path = true) (m : Int) (hm : f.mtime = some m)
    (hw : within_event_window cfg m = false) :
    f.path ∈ (pollFile cfg now ok st f).seen := by
  unfold pollFile
  rw [hsuf, hm]
  simp [hw, mem_setAdd_self]

theorem not_mem_append_singleton {x y : String} {l : List String}
    (h1 : x ∉ l) (h2 : x ≠ y) : x ∉ l ++ [y] := by
  intro h
  rcases List.mem_append.mp h with h | h
  · exact h1 h
  · exact h2 (by simpa using h)

theorem pollFile_out_preserve {p : String} (cfg : SessCfg) (now : Int)
    (ok : String → Bool) (st : SessState) (f : PollFile)
    (hf : fileOutOfWindow cfg p f = true)
    (ha : p ∉ st.attempted) (he : p ∉ st.enqueued) :
    p ∉ (pollFile cfg now ok st f).attempted ∧
      p ∉ (pollFile cfg now ok st f).enqueued := by
  by_cases hpath : f.path = p
  · have hfp : (f.path != p) = false := by simp [hpath]
    unfold fileOutOfWindow at hf
    rw [hfp, Bool.false_or] at hf
    unfold pollFile
    dsimp only
    cases hm : f.mtime with
    | none =>
        split
        · exact ⟨ha, he⟩
        · exact ⟨ha, he⟩
    | some m =>
        rw [hm] at hf
        have hw : within_event_window cfg m = false := by simpa using hf
        split
        · exact ⟨ha, he⟩
        · simp [hw, ha, he]
  · constructor
    · intro hmem
      rcases mem_pollFile_attempted cfg now ok st f hmem with h | h
      · exact ha h
      · exact hpath h.symm
    · intro hmem
      rcases mem_pollFile_enqueued cfg now ok st f hmem with h | h
      · exact he h
      · exact hpath h.symm

theorem pollFile_inv9 {p : String} (cfg : SessCfg) (now : Int)
    (ok : String → Bool) (st : SessState) (f : PollFile)
    (h1 : p ∈ st.seen) (h2 : st.retryState.lookup p = none)
    (h3 : p ∉ st.attempted) (h4 : p ∉ st.enqueued) :
    p ∈ (pollFile cfg now ok st f).seen ∧
      (pollFile cfg now ok st f).retryState.lookup p = none ∧
      p ∉ (pollFile cfg now ok st f).attempted ∧
      p ∉ (pollFile cfg now ok st f).enqueued := by
  by_cases hpath : f.path = p
  · -- p is seen with no retry entry, so the already-handled check skips it
    have hcond : f.path ∈ st.seen ∧ (st.retryState.lookup f.path).isNone = true := by
      rw [hpath]
      exact ⟨h1, by simp [h2]⟩
    unfold pollFile
    dsimp only
    repeat' split
    all_goals try exact ⟨h1, h2, h3, h4⟩
    all_goals
      exact ⟨setAdd_mono _ h1, by rw [lookup_dictDel, if_pos hpath.symm], h3, h4⟩
  · have hne : p ≠ f.path := fun hh => hpath hh.symm
    unfold pollFile
    dsimp only
    repeat' split
    all_goals try exact ⟨h1, h2, h3, h4⟩
    all_goals
      try exact ⟨setAdd_mono _ h1,
        by rw [lookup_dictDel, if_neg hne]; exact h2, h3, h4⟩
    all_goals (unfold try_upload; dsimp only; repeat' split)
    · exact ⟨setAdd_mono _ h1,
        by rw [lookup_dictDel, if_neg hne]; exact h2,
        not_mem_append_singleton h3 hne, h4⟩
    · exact ⟨setAdd_mono _ h1,
        by rw [lookup_dictDel, if_neg hne]; exact h2,
        not_mem_append_singleton h3 hne, not_mem_append_singleton h4 hne⟩
    · exact ⟨h1,
        by rw [lookup_dictSet, if_neg hne]; exact h2,
        not_mem_append_singleton h3 hne, h4⟩

theorem finalSweep_seen (cfg : SessCfg) (ff : List PollFile) (st : SessState) :
    (finalSweep cfg ff st).seen = st.seen := rfl

theorem finalSweep_attempted (cfg : SessCfg) (ff : List PollFile) (st : SessState) :
    (finalSweep cfg ff st).attempted = st.attempted := rfl

theorem finalSweep_retryState (cfg : SessCfg) (ff : List PollFile) (st : SessState) :
    (finalSweep cfg ff st).retryState = st.retryState := rfl

theorem mem_finalSweep_enqueued {x : String} (cfg : SessCfg) (ff : List PollFile)
    (st : SessState) :
    x ∈ (finalSweep cfg ff st).enqueued →
      x ∈ st.enqueued ∨
        ∃ f ∈ ff, f.path = x ∧ x ∉ st.seen ∧
          ∃ m, f.mtime = some m ∧ within_event_window cfg m = true := by
  unfold finalSweep
  dsimp only
  intro h
  rcases List.mem_append.mp h with h1 | h2
  · exact Or.inl h1
  · right
    rcases List.mem_filterMap.mp h2 with ⟨f, hf, heq⟩
    by_cases hs : hasLogSuffix f.path = true
    · by_cases hseen : f.path ∈ st.seen
      · simp [hs, hseen] at heq
      · cases hm : f.mtime with
        | none => simp [hs, hseen, hm] at heq
        | some m =>
            by_cases hw : within_event_window cfg m = true
            · simp only [hs, Bool.not_true, Bool.false_eq_true, if_false,
                  hseen, if_neg, hm, hw, if_true] at heq
              obtain rfl : f.path = x := by simpa using heq
              exact ⟨f, hf, rfl, hseen, m, hm, hw⟩
            · simp [hs, hseen, hm, hw] at heq
    · simp [hs] at heq

/-! ## C8 -/

/-- C8: a file whose every observed modification time is out of the
event window (more than 5 min before start or more than 15 min after
end, e.g. 20 minutes after session end) is never attempted for upload
and never handed to the persistent retry queue — neither during polling
nor in the final sweep — and once the polling loop walks it (readable
mtime, watched suffix), it is marked resolved in `seen`. -/
theorem c8_out_of_window_file_never_uploaded_or_enqueued
    (cfg : SessCfg) (p : String) (init : List String) (rounds : List PollRound)
    (ff : List PollFile) (h : outOfWindowEverywhere cfg p rounds ff = true) :
    p ∉ (runSession cfg init rounds ff).attempted ∧
    p ∉ (runSession cfg init rounds ff).enqueued ∧
    (appearsWithMtime p rounds = true → p ∈ (runSession cfg init rounds ff).seen) := by
  unfold outOfWindowEverywhere at h
  rw [Bool.and_eq_true] at h
  obtain ⟨hR, hF⟩ := h
  rw [List.all_eq_true] at hR hF
  have hpoll :
      p ∉ (rounds.foldl (pollStep cfg) (runSession.initSessState init)).attempted ∧
      p ∉ (rounds.foldl (pollStep cfg) (runSession.initSessState init)).enqueued := by
    apply foldl_preserve_of_mem
      (P := fun st : SessState => p ∉ st.attempted ∧ p ∉ st.enqueued)
    · intro r hr st hst
      apply foldl_preserve_of_mem
        (P := fun st : SessState => p ∉ st.attempted ∧ p ∉ st.enqueued)
      · intro f hfmem st' hst'
        have hfile := hR r hr
        rw [List.all_eq_true] at hfile
        exact pollFile_out_preserve cfg r.now r.ok st' f (hfile f hfmem)
          hst'.1 hst'.2
      · exact hst
    · exact ⟨by simp [runSession.initSessState], by simp [runSession.initSessState]⟩
  refine ⟨?_, ?_, ?_⟩
  · show p ∉ (finalSweep cfg ff _).attempted
    rw [finalSweep_attempted]
    exact hpoll.1
  · show p ∉ (finalSweep cfg ff _).enqueued
    intro hmem
    rcases mem_finalSweep_enqueued cfg ff _ hmem with h1 | ⟨f, hfmem, rfl, _, m, hm, hw⟩
    · exact hpoll.2 h1
    · have hfile := hF f hfmem
      unfold fileOutOfWindow at hfile
      simp only [bne_self_eq_false, Bool.false_or, hm] at hfile
      rw [hw] at hfile
      simp at hfile
  · intro happ
    unfold appearsWithMtime at happ
    rw [Bool.and_eq_true] at happ
    obtain ⟨hsuf, hany⟩ := happ
    rw [List.any_eq_true] at hany
    obtain ⟨r, hr, hfany⟩ := hany
    rw [List.any_eq_true] at hfany
    obtain ⟨f, hfmem, hfp⟩ := hfany
    rw [Bool.and_eq_true] at hfp
    obtain ⟨hfpath, hfsome⟩ := hfp
    have hfpath' : f.path = p := by simpa using hfpath
    obtain ⟨m, hm⟩ := Option.isSome_iff_exists.mp hfsome
    have hfile := hR r hr
    rw [List.all_eq_true] at hfile
    have hout := hfile f hfmem
    unfold fileOutOfWindow at hout
    rw [hfpath'] at hout
    simp only [bne_self_eq_false, Bool.false_or, hm] at hout
    have hw : within_event_window cfg m = false := by simpa using hout
    show p ∈ (finalSweep cfg ff _).seen
    rw [finalSweep_seen]
    apply foldl_attain (P := fun st : SessState => p ∈ st.seen)
      (fun s r' hs => foldl_preserve
        (P := fun st : SessState => p ∈ st.seen)
        (fun s' f' hs' => pollFile_seen_mono cfg r'.now r'.ok s' f' hs')
        r'.files s hs)
      rounds r hr
    intro s
    apply foldl_attain (P := fun st : SessState => p ∈ st.seen)
      (fun s' f' hs' => pollFile_seen_mono cfg r.now r.ok s' f' hs')
      r.files f hfmem
    intro s'
    rw [← hfpath']
    exact pollFile_out_of_window_seen cfg r.now r.ok s' f
      (by rw [hfpath']; exact hsuf) m hm hw

/-- C8 witness: the concrete session whose only walked file's mtime is
20 minutes after session end. -/
theorem c8_witness :
    "late.zevtc" ∉ (runSession c8Cfg [] c8Rounds [c8File]).attempted ∧
    "late.zevtc" ∉ (runSession c8Cfg [] c8Rounds [c8File]).enqueued ∧
    (appearsWithMtime "late.zevtc" c8Rounds = true →
      "late.zevtc" ∈ (runSession c8Cfg [] c8Rounds [c8File]).seen) :=
  c8_out_of_window_file_never_uploaded_or_enqueued c8Cfg "late.zevtc" [] c8Rounds
    [c8File] (by rfl)

/-! ## C9 -/

/-- C9 (implicit): every suffix-matching log file that already exists
under the directory root when the polling loop starts is seeded into
`seen`, and is therefore never attempted for upload, never handed to the
persistent retry queue (neither during polling nor in the final sweep),
and never acquires retry state — even when its mtime lies within the
event window. -/
theorem c9_preexisting_file_never_uploaded
    (cfg : SessCfg) (p : String) (init : List String) (rounds : List PollRound)
    (ff : List PollFile) (hmem : p ∈ init) (hsuf : hasLogSuffix p = true) :
    p ∈ (runSession cfg init rounds ff).seen ∧
    (runSession cfg init rounds ff).retryState.lookup p = none ∧
    p ∉ (runSession cfg init rounds ff).attempted ∧
    p ∉ (runSession cfg init rounds ff).enqueued := by
  have hpoll :
      p ∈ (rounds.foldl (pollStep cfg) (runSession.initSessState init)).seen ∧
      (rounds.foldl (pollStep cfg) (runSession.initSessState init)).retryState.lookup p
        = none ∧
      p ∉ (rounds.foldl (pollStep cfg) (runSession.initSessState init)).attempted ∧
      p ∉ (rounds.foldl (pollStep cfg) (runSession.initSessState init)).enqueued := by
    apply foldl_preserve
      (P := fun st : SessState => p ∈ st.seen ∧ st.retryState.lookup p = none ∧
        p ∉ st.attempted ∧ p ∉ st.enqueued)
    · intro st r hst
      apply foldl_preserve
        (P := fun st : SessState => p ∈ st.seen ∧ st.retryState.lookup p = none ∧
          p ∉ st.attempted ∧ p ∉ st.enqueued)
      · intro st' f hst'
        exact pollFile_inv9 cfg r.now r.ok st' f hst'.1 hst'.2.1 hst'.2.2.1 hst'.2.2.2
      · exact hst
    · refine ⟨List.mem_filter.mpr ⟨hmem, hsuf⟩, rfl, by simp [runSession.initSessState],
        by simp [runSession.initSessState]⟩
  refine ⟨?_, ?_, ?_, ?_⟩
  · show p ∈ (finalSweep cfg ff _).seen
    rw [finalSweep_seen]; exact hpoll.1
  · show (finalSweep cfg ff _).retryState.lookup p = none
    rw [finalSweep_retryState]; exact hpoll.2.1
  · show p ∉ (finalSweep cfg ff _).attempted
    rw [finalSweep_attempted]; exact hpoll.2.2.1
  · show p ∉ (finalSweep cfg ff _).enqueued
    intro hmem'
    rcases mem_finalSweep_enqueued cfg ff _ hmem' with h1 | ⟨f, _, rfl, hnotseen, _⟩
    · exact hpoll.2.2.2 h1
    · exact hnotseen hpoll.1

/-- C9 witness: a pre-existing in-window stable file, with uploads that
would succeed, is still never attempted. -/
theorem c9_witness :
    "old.zevtc" ∈ (runSession c8Cfg ["old.zevtc"] c9Rounds [c9File]).seen ∧
    (runSession c8Cfg ["old.zevtc"] c9Rounds [c9File]).retryState.lookup "old.zevtc"
      = none ∧
    "old.zevtc" ∉ (runSession c8Cfg ["old.zevtc"] c9Rounds [c9File]).attempted ∧
    "old.zevtc" ∉ (runSession c8Cfg ["old.zevtc"] c9Rounds [c9File]).enqueued :=
  c9_preexisting_file_never_uploaded c8Cfg "old.zevtc" ["old.zevtc"] c9Rounds
    [c9File] (by simp) (by rfl)

/-! ## C10 -/

/-- C10 (implicit): a dict payload with no player list and no non-empty
string under `permalink`/`permaLink`/`id` is returned unchanged by the
normalizer's dict branch (no invalid-payload error, no fetch), and a
structurally empty object then yields zero metric rows in extraction. -/
theorem c10_empty_payload_passes_through
    (kvs : List (String × JVal)) (hp : noPlayerList kvs = true)
    (hl : noUsableLink kvs = true) :
    coerce_payload_dict kvs = CoerceStep.ret (.obj kvs) ∧
    computeRows (.obj []) = [] := by
  refine ⟨?_, by rfl⟩
  unfold coerce_payload_dict
  dsimp only
  have hplayers : ∀ ps, (JVal.obj kvs).get "players" ≠ some (.arr ps) := by
    intro ps hcontra
    unfold noPlayerList at hp
    rw [show (JVal.obj kvs).get "players" = kvs.lookup "players" from rfl] at hcontra
    rw [hcontra] at hp
    simp at hp
  split
  · exact absurd (by assumption) (hplayers _)
  · split
    · rename_i s hfind
      exfalso
      have htruthy := List.find?_some hfind
      have hmem := List.mem_of_find?_eq_some hfind
      have hs : s ≠ "" := by simpa [JVal.truthy] using htruthy
      rw [List.mem_filterMap] at hmem
      obtain ⟨o, ho, hid⟩ := hmem
      subst hid
      unfold noUsableLink at hl
      rw [List.all_eq_true] at hl
      simp only [List.mem_cons, List.not_mem_nil, or_false] at ho
      rcases ho with ho | ho | ho
      all_goals
        first
        | (have hvv := hl "permalink" (by simp)
           rw [show (JVal.obj kvs).get "permalink" = kvs.lookup "permalink" from rfl]
             at ho
           rw [← ho] at hvv
           exact hs (by simpa using hvv))
        | (have hvv := hl "permaLink" (by simp)
           rw [show (JVal.obj kvs).get "permaLink" = kvs.lookup "permaLink" from rfl]
             at ho
           rw [← ho] at hvv
           exact hs (by simpa using hvv))
        | (have hvv := hl "id" (by simp)
           rw [show (JVal.obj kvs).get "id" = kvs.lookup "id" from rfl] at ho
           rw [← ho] at hvv
           exact hs (by simpa using hvv))
    · rfl

/-- C10 witness: a payload with only a falsy `id` (and an unrelated key)
flows through unchanged. -/
theorem c10_witness :
    coerce_payload_dict c10Kvs = CoerceStep.ret (.obj c10Kvs) ∧
    computeRows (.obj []) = [] :=
  c10_empty_payload_passes_through c10Kvs (by rfl) (by rfl)

end PoW
